import Mathlib

/-!
Shallow embedding of the dependency/version resolution core of
`RepositoryBootstrap/Impl/ActivationData.py` (ActivationData.Load, the
recursive Walk, version-spec merging, fingerprint validation, and the
activation-data cache Load/Save paths), together with theorems checking
the natural-language specification against it.

Python mappings (dict / OrderedDict) are modelled as insertion-ordered
association lists, matching the iteration order the source relies on
(OrderedDict, and dict in Python 3.7+, iterate in insertion order).
Fallible Python code (raised exceptions) is modelled with `Except`.
-/

deriving instance DecidableEq for Except

namespace VCE

/-- A tool or library version requirement (`Configuration.VersionInfo`).
Modelled from the spec: `VersionSpecs` entries are records of Name and
Version (the class itself lives in `SetupAndActivate/Configuration.py`,
which is not part of the sources; the spec gives its shape). -/
structure VersionInfo where
  Name : String
  Version : String
deriving DecidableEq, Repr

/-- Modelled from the spec: `Configuration.VersionSpecs` — `Tools` is a list of
VersionInfo, `Libraries` maps a language name to a list of VersionInfo. -/
structure VersionSpecsT where
  Tools : List VersionInfo
  Libraries : List (String × List VersionInfo)
deriving DecidableEq, Repr

/-- Identity plus binding for one repository (`Repository` in
ActivationData.py): Id, Name, Root, selected Configuration, IsMixinRepo. -/
structure Repository where
  Id : String
  Name : String
  Root : String
  Configuration : Option String
  IsMixinRepo : Bool
deriving DecidableEq, Repr

/-- One declared dependency: a repository root plus the configuration to
activate it with (the `dependency_info` records of a configuration). -/
structure DependencyInfo where
  RepositoryRoot : String
  Configuration : Option String
deriving DecidableEq, Repr

/-- Modelled from the spec (§3 BootstrapInfo): the per-configuration record of
a bootstrap descriptor — Dependencies, VersionSpecs, the Fingerprint captured
at setup time, and the two ignore-lists (which may be absent, hence Option;
the source reads them as `... or []`). -/
structure ConfigurationInfo where
  Dependencies : List DependencyInfo
  VersionSpecs : VersionSpecsT
  Fingerprint : List (String × String)
  IgnoreConflictedRepositoryNames : Option (List String)
  IgnoreConflictedLibraryNames : Option (List String)
deriving DecidableEq, Repr

/-- Modelled from the spec (§3, §4.1): the `EnvironmentBootstrap` descriptor of
one repository — the mapping configuration-name-or-none to ConfigurationInfo,
the IsConfigurable flag, and IsMixinRepo (read by Load as
`this_bootstrap_info.IsMixinRepo`). -/
structure EnvironmentBootstrapT where
  Configurations : List (Option String × ConfigurationInfo)
  IsConfigurable : Bool
  IsMixinRepo : Bool
deriving DecidableEq, Repr

/-- One repository as it exists on disk: its root path, the identity that
`RepositoryBootstrap.GetRepositoryInfo` would resolve from that root
(name and id), its bootstrap descriptor, and an abstract content value
standing for the bytes under the root (the fingerprint input). -/
structure DiskRepo where
  root : String
  name : String
  id : String
  bootstrap : EnvironmentBootstrapT
  content : String
deriving DecidableEq, Repr

/-- The filesystem visible to one resolution: the set of repositories on disk. -/
abbrev Env := List DiskRepo

def findDiskRepo (env : Env) (root : String) : Option DiskRepo :=
  env.find? (fun d => d.root == root)

/-- The fatal errors a resolution can raise (each `raise Exception(...)` site of
ActivationData.py, by the taxonomy of spec §7), plus the bookkeeping outcomes
of the embedding (`outOfFuel` marks a recursion that exceeded the fuel bound;
`keyError` / `indexError` model the corresponding uncaught Python errors). -/
inductive LoadError where
  | notARepository (root : String)
  | bootstrapMissing (root : String)
  | assertionError
  | configurableNoConfiguration (root : String)
  | notConfigurableWithConfiguration (root : String)
  | unknownConfiguration (root : String)
  | locationMismatch (name id newRoot origRoot : String)
  | configurationConflict (name id : String)
  | versionMismatch (kind name : String)
  | staleEnvironment (status : List (String × String))
  | keyError
  | indexError
  | outOfFuel
deriving DecidableEq, Repr

/-- Python truthiness of an optional string (`not x` is true for both None and
the empty string). -/
def pyTruthy : Option String → Bool
  | none => false
  | some s => s ≠ ""

/-- Creation of a Repository (`Repository.Create`): resolve name and id from the repository root.
Modelled from the spec for the missing `RepositoryBootstrap.GetRepositoryInfo`:
it reads the repository identity marker under the root, failing when the root
is not a repository. `IsMixinRepo` starts False (overridden later). -/
def repositoryCreate (env : Env) (repo_root : String) (configuration : Option String) :
    Except LoadError Repository :=
  match findDiskRepo env repo_root with
  | none => .error (.notARepository repo_root)
  | some d =>
      .ok { Id := d.id, Name := d.name, Root := repo_root,
            Configuration := configuration, IsMixinRepo := false }

/-- Modelled from the spec (§4.1): `EnvironmentBootstrap.Load` reads the
on-disk bootstrap descriptor of the repository at `root`; a pure function of
the filesystem, failing when the descriptor is missing or malformed. -/
def environmentBootstrapLoad (env : Env) (root : String) : Except LoadError EnvironmentBootstrapT :=
  match findDiskRepo env root with
  | none => .error (.bootstrapMissing root)
  | some d => .ok d.bootstrap

/-- The tool branch of the version-spec merge (lines 314–327): if no tool of
this name is recorded yet, append it; if one is recorded with a different
version, fatal version mismatch — there is no ignore-list for tools. -/
def mergeToolVersion (tool_version_info : List VersionInfo) (version_info : VersionInfo) :
    Except LoadError (List VersionInfo) :=
  match tool_version_info.find? (fun tvi => tvi.Name == version_info.Name) with
  | none => .ok (tool_version_info ++ [version_info])
  | some existing_version_info =>
      if version_info.Version ≠ existing_version_info.Version then
        .error (.versionMismatch "Tools" version_info.Name)
      else
        .ok tool_version_info

/-- Model of `library_version_info.setdefault(language, []).append(version_info)`. -/
def setdefaultAppend (library_version_info : List (String × List VersionInfo))
    (language : String) (version_info : VersionInfo) : List (String × List VersionInfo) :=
  if library_version_info.any (fun p => p.1 == language) then
    library_version_info.map
      (fun p => if p.1 == language then (p.1, p.2 ++ [version_info]) else p)
  else
    library_version_info ++ [(language, [version_info])]

/-- Model of `next((lvi for lvi in library_version_info.get(language, []) if lvi.Name ==
version_info.Name), None)`: the recorded version of one library of one
language, if any. -/
def findLibraryVersion (library_version_info : List (String × List VersionInfo))
    (language name : String) : Option VersionInfo :=
  (((library_version_info.find? (fun p => p.1 == language)).map (·.2)).getD []).find?
    (fun lvi => lvi.Name == name)

/-- The library branch of the version-spec merge (lines 329–354): per
(language, library-name), first declaration wins a slot; a second declaration
with a different version is a fatal mismatch unless the library name is in the
ignore-list captured from the root, in which case nothing changes. -/
def mergeLibraryVersion (ignore_conflicted_library_names : List String)
    (library_version_info : List (String × List VersionInfo))
    (language : String) (version_info : VersionInfo) :
    Except LoadError (List (String × List VersionInfo)) :=
  match findLibraryVersion library_version_info language version_info.Name with
  | none => .ok (setdefaultAppend library_version_info language version_info)
  | some existing_version_info =>
      if version_info.Version ≠ existing_version_info.Version then
        if version_info.Name ∉ ignore_conflicted_library_names then
          .error (.versionMismatch (language ++ " Libraries") version_info.Name)
        else
          .ok library_version_info
      else
        .ok library_version_info

/-- One entry of the walker registry: the bootstrap info of a repository plus
the fields the walk attaches to it (`bootstrap_info.Repo`,
`bootstrap_info.ReferencingRepo`, `bootstrap_info.priority_modifier`). -/
structure RegistryEntry where
  binfo : EnvironmentBootstrapT
  Repo : Repository
  ReferencingRepo : Option Repository
  priority_modifier : Nat
deriving DecidableEq, Repr

/-- The mutable accumulators closed over by `Walk` (lines 147–153): the
registry `repositories` (an OrderedDict keyed by repository id), the merged
tool and library version lists, and the two ignore-lists captured from the
root configuration.  `version_info_lookup` (used only to name the other
repository in mismatch diagnostics) is not modelled. -/
structure WalkState where
  repositories : List (String × RegistryEntry)
  tool_version_info : List VersionInfo
  library_version_info : List (String × List VersionInfo)
  ignore_conflicted_repository_names : List String
  ignore_conflicted_library_names : List String
deriving DecidableEq, Repr

def initialWalkState : WalkState := ⟨[], [], [], [], []⟩

def lookupReg (reg : List (String × RegistryEntry)) (k : String) : Option RegistryEntry :=
  (reg.find? (fun p => p.1 == k)).map (·.2)

def updateReg (reg : List (String × RegistryEntry)) (k : String)
    (f : RegistryEntry → RegistryEntry) : List (String × RegistryEntry) :=
  reg.map (fun p => if p.1 == k then (p.1, f p.2) else p)

def lookupConfig (binfo : EnvironmentBootstrapT) (c : Option String) : Option ConfigurationInfo :=
  (binfo.Configurations.find? (fun p => p.1 == c)).map (·.2)

/-- Model of `bootstrap_info.priority_modifier += priority_modifier`. -/
def bumpPriority (priority_modifier : Nat) (e : RegistryEntry) : RegistryEntry :=
  { e with priority_modifier := e.priority_modifier + priority_modifier }

/-- Step 1 of a visit (lines 157–167): on first visit to this repository id,
load its bootstrap descriptor and register it (with priority 0); then add this
visit value of `priority_modifier` to the accumulated priority. -/
def registerAndBump (env : Env) (referencing_repo : Option Repository) (repo : Repository)
    (priority_modifier : Nat) (st : WalkState) : Except LoadError WalkState :=
  let registered : Except LoadError WalkState :=
    if (lookupReg st.repositories repo.Id).isNone then
      (environmentBootstrapLoad env repo.Root).map (fun binfo =>
        { st with repositories := st.repositories ++
            [(repo.Id, { binfo := binfo, Repo := repo,
                         ReferencingRepo := referencing_repo, priority_modifier := 0 })] })
    else
      .ok st
  registered.map (fun st =>
    { st with repositories := updateReg st.repositories repo.Id (bumpPriority priority_modifier) })

/-- Lines 169–180: when visiting the repository whose root is the resolution
root and whose descriptor declares exactly the single unconfigured
configuration, capture its ignore-lists (the source asserts both accumulators
are still empty before extending them). -/
def captureIgnoreLists (repository_root : String) (repo : Repository)
    (binfo : EnvironmentBootstrapT) (st : WalkState) : Except LoadError WalkState :=
  if repo.Root == repository_root && binfo.Configurations.length == 1 &&
      binfo.Configurations.any (fun p => p.1 == none) then
    if st.ignore_conflicted_repository_names ≠ [] ∨ st.ignore_conflicted_library_names ≠ [] then
      .error .assertionError
    else
      match lookupConfig binfo none with
      | none => .error .keyError
      | some cfg =>
          .ok { st with
                ignore_conflicted_repository_names :=
                  st.ignore_conflicted_repository_names ++ (cfg.IgnoreConflictedRepositoryNames.getD []),
                ignore_conflicted_library_names :=
                  st.ignore_conflicted_library_names ++ (cfg.IgnoreConflictedLibraryNames.getD []) }
  else
    .ok st

/-- Lines 182–275: configuration applicability, declared-configuration,
consistent-location and consistent-configuration checks for one visit.
`entryRepo` is `bootstrap_info.Repo`, the Repository stored at registration. -/
def visitChecks (repo : Repository) (binfo : EnvironmentBootstrapT) (entryRepo : Repository)
    (st : WalkState) : Except LoadError Unit :=
  if binfo.IsConfigurable && !(pyTruthy repo.Configuration) then
    .error (.configurableNoConfiguration repo.Root)
  else if !binfo.IsConfigurable && pyTruthy repo.Configuration then
    .error (.notConfigurableWithConfiguration repo.Root)
  else if (lookupConfig binfo repo.Configuration).isNone then
    .error (.unknownConfiguration repo.Root)
  else if repo.Root != entryRepo.Root then
    .error (.locationMismatch repo.Name repo.Id repo.Root entryRepo.Root)
  else if repo.Configuration != entryRepo.Configuration &&
      !(st.ignore_conflicted_repository_names.contains repo.Name) then
    .error (.configurationConflict repo.Name repo.Id)
  else
    .ok ()

/-- Lines 314–354: merge the version specs declared by the selected
configuration of this visit into the accumulators. -/
def mergeVersionSpecs (cfg : ConfigurationInfo) (st : WalkState) : Except LoadError WalkState := do
  let tools ← cfg.VersionSpecs.Tools.foldlM mergeToolVersion st.tool_version_info
  let libs ← cfg.VersionSpecs.Libraries.foldlM
    (fun acc p =>
      p.2.foldlM
        (fun acc2 vi => mergeLibraryVersion st.ignore_conflicted_library_names acc2 p.1 vi)
        acc)
    st.library_version_info
  pure { st with tool_version_info := tools, library_version_info := libs }

/-- One pending activity of the recursive walk: visiting a repository node
(`Walk(referencing_repo, repo, priority_modifier)`), or working through the
dependency list of a visited node (the `for dependency_info in ...` loop,
which recurses with `priority_modifier + 1`). -/
inductive WalkCall where
  | node (referencing_repo : Option Repository) (repo : Repository) (priority_modifier : Nat)
  | deps (repo : Repository) (next_priority : Nat) (rest : List DependencyInfo)
deriving DecidableEq, Repr

/-- The recursive `Walk` (lines 156–367), with a fuel bound standing for the
Python call stack (structural recursion on the fuel, so one unit of fuel is
also consumed per dependency-list step; any sufficiently large fuel computes
the same result).  Visiting a node: register/bump, capture root ignore-lists,
run the visit checks, merge version specs, then recurse into every declared
dependency of the selected configuration with `priority_modifier + 1`.  Note
that the body — including the recursion into dependencies — runs on every
visit; only the descriptor load and registration are skipped on repeat
visits. -/
def walkFn (env : Env) (repository_root : String) :
    Nat → WalkCall → WalkState → Except LoadError WalkState
  | 0, _, _ => .error .outOfFuel
  | fuel + 1, .node referencing_repo repo priority_modifier, st => do
    let st ← registerAndBump env referencing_repo repo priority_modifier st
    match lookupReg st.repositories repo.Id with
    | none => .error .keyError
    | some entry => do
      let st ← captureIgnoreLists repository_root repo entry.binfo st
      let _ ← visitChecks repo entry.binfo entry.Repo st
      match lookupConfig entry.binfo repo.Configuration with
      | none => .error .keyError
      | some cfg => do
        let st ← mergeVersionSpecs cfg st
        walkFn env repository_root fuel
          (.deps repo (priority_modifier + 1) cfg.Dependencies) st
  | _ + 1, .deps _ _ [], st => .ok st
  | fuel + 1, .deps repo next_priority (dependency_info :: rest), st => do
    let depRepo ← repositoryCreate env dependency_info.RepositoryRoot dependency_info.Configuration
    let st ← walkFn env repository_root fuel (.node (some repo) depRepo next_priority) st
    walkFn env repository_root fuel (.deps repo next_priority rest) st

/-- Entry point of one visit, `Walk(referencing_repo, repo, priority_modifier)`. -/
def walk (env : Env) (repository_root : String) (fuel : Nat)
    (referencing_repo : Option Repository) (repo : Repository) (priority_modifier : Nat)
    (st : WalkState) : Except LoadError WalkState :=
  walkFn env repository_root fuel (.node referencing_repo repo priority_modifier) st

/-- Insert one registry item into a list already sorted by descending
priority, after every item of greater-or-equal priority. -/
def insertDescending (x : String × RegistryEntry) :
    List (String × RegistryEntry) → List (String × RegistryEntry)
  | [] => [x]
  | y :: ys =>
      if x.2.priority_modifier > y.2.priority_modifier then x :: y :: ys
      else y :: insertDescending x ys

/-- Model of `priority_values.sort(key=lambda x: x[1], reverse=True)` (lines 380–383):
a stable sort by descending priority — items of equal priority keep their
original (first-visit) order.  A stable sort by one key is unique, so this
insertion sort computes the same list as the Python sort. -/
def sortDescending (l : List (String × RegistryEntry)) : List (String × RegistryEntry) :=
  l.foldl (fun acc x => insertDescending x acc) []

/-- Lookup in a fingerprint mapping (first binding of the key). -/
def flookup (m : List (String × String)) (k : String) : Option String :=
  (m.find? (fun p => p.1 == k)).map (·.2)

/-- Python dict equality of two fingerprint mappings (`!=` at line 397):
same keys and the same value for every key, ignoring order. -/
def fingerprintsEqual (a b : List (String × String)) : Bool :=
  a.all (fun p => flookup b p.1 == some p.2) && b.all (fun p => flookup a p.1 == some p.2)

/-- Lines 398–417: the staleness diagnostic — every key of the freshly
calculated mapping is classified Added (not captured at setup), Identical, or
Modified, and every captured key absent from the calculated mapping is
classified Removed. -/
def classifyFingerprint (calculated stored : List (String × String)) :
    List (String × String) :=
  (calculated.map (fun p =>
      if (flookup stored p.1).isNone then (p.1, "Added")
      else (p.1, if flookup stored p.1 == some p.2 then "Identical" else "Modified"))) ++
  (stored.filterMap (fun p =>
      if (flookup calculated p.1).isNone then some (p.1, "Removed") else none))

/-- Modelled from the spec (§4.3): `Utilities.CalculateFingerprint` computes a
reproducible content signature for the repository root plus each direct
dependency root, keyed per path; modelled as mapping each path to the abstract
content of the repository at that path. -/
def calculateFingerprint (env : Env) (paths : List String) (_base_path : String) :
    List (String × String) :=
  paths.map (fun p =>
    (p, match findDiskRepo env p with
        | some d => d.content
        | none => "<missing>"))

/-- The resolved artifact (`ActivationData.__init__`, lines 462–480). -/
structure ActivationDataT where
  Id : String
  Root : String
  IsMixinRepo : Bool
  Configuration : Option String
  IsFastEnvironment : Bool
  PrioritizedRepositories : List Repository
  VersionSpecs : VersionSpecsT
  IgnoreConflictedLibraryNames : List String
deriving DecidableEq, Repr

/-- The cache-miss (full resolution) path of `ActivationData.Load`
(lines 143–459): normalize and check the root (normalization modelled as the
identity on the already-normalized roots of the model; the `isdir` assert
fails when the root is not on disk), walk the graph from the root with
priority 1, sort the registry by descending priority (the source then reads
the root entry back as `repositories[priority_values[-1][0]]`, i.e. the LAST,
least-priority entry), check the fingerprint, and construct the result. -/
def loadForce (env : Env) (fuel : Nat) (repository_root : String)
    (configuration : Option String) (is_fast_environment : Bool) :
    Except LoadError ActivationDataT := do
  if (findDiskRepo env repository_root).isNone then
    .error .assertionError
  else do
    let this_repository ← repositoryCreate env repository_root configuration
    let st ← walk env repository_root fuel none this_repository 1 initialWalkState
    let priority_values := sortDescending st.repositories
    match priority_values.getLast? with
    | none => .error .indexError
    | some last => do
      let this_bootstrap_info := last.2
      match lookupConfig this_bootstrap_info.binfo configuration with
      | none => .error .keyError
      | some this_configuration => do
        let calculated_fingerprint := calculateFingerprint env
          (repository_root :: this_configuration.Dependencies.map (·.RepositoryRoot))
          repository_root
        if !(fingerprintsEqual this_configuration.Fingerprint calculated_fingerprint) then
          .error (.staleEnvironment
            (classifyFingerprint calculated_fingerprint this_configuration.Fingerprint))
        else
          .ok { Id := this_repository.Id
                Root := repository_root
                IsMixinRepo := this_bootstrap_info.binfo.IsMixinRepo
                Configuration := configuration
                IsFastEnvironment := is_fast_environment
                PrioritizedRepositories := priority_values.map (fun p => p.2.Repo)
                VersionSpecs := ⟨st.tool_version_info, st.library_version_info⟩
                IgnoreConflictedLibraryNames := st.ignore_conflicted_library_names }

/-- Contents of the activation cache file: either the well-formed JSON object
`Save` writes for some ActivationData, or unparseable bytes (truncated,
corrupted, or otherwise malformed). -/
inductive FileData where
  | valid (a : ActivationDataT)
  | junk (s : String)
deriving DecidableEq, Repr

/-- The recoverable errors of the cached-load path (all are swallowed by the
bare `except: pass` at lines 140–141). -/
inductive DeserializeError where
  | jsonDecodeError
  | typeErrorMissingArgument
deriving DecidableEq, Repr

/-- The cached-load path of `ActivationData.Load` (lines 99–141): parse the
JSON file (unparseable bytes fail), rebuild the VersionInfo and Repository
values from it, then call the constructor.  `ActivationData.__init__` takes 8
required parameters but the call at lines 121–138 passes only 7 positional
arguments — `is_fast_environment` is never supplied — so for every parseable
file the constructor call raises TypeError.  Deserialization therefore fails
on every possible file content. -/
def deserializeActivationData : FileData → Except DeserializeError ActivationDataT
  | .junk _ => .error .jsonDecodeError
  | .valid _a => .error .typeErrorMissingArgument

/-- The on-disk cache: file path to file contents. -/
abbrev CacheFs := List (String × FileData)

def cacheLookup (fs : CacheFs) (p : String) : Option FileData :=
  (fs.find? (fun q => q.1 == p)).map (·.2)

def cacheWrite (fs : CacheFs) (p : String) (d : FileData) : CacheFs :=
  if fs.any (fun q => q.1 == p) then
    fs.map (fun q => if q.1 == p then (q.1, d) else q)
  else
    fs ++ [(p, d)]

/-- Modelled from the spec (§6): `EnvironmentBootstrap.GetEnvironmentDir` — a
generated-artifacts directory scoped to the repository root. -/
def getEnvironmentDir (repository_root generated_dir_name : String) : String :=
  repository_root ++ "/" ++ generated_dir_name

/-- Model of `_GetActivationDir` (lines 516–529): the per-configuration activation
directory; `configuration or DEFAULT_CONFIGURATION_NAME`, with a distinct
`.fast` suffix for fast environments. -/
def getActivationDir (repository_root : String) (configuration : Option String)
    (is_fast_environment : Bool) : String :=
  let cfg := if pyTruthy configuration then configuration.getD "" else "DefaultConfig"
  let result := getEnvironmentDir repository_root "Generated" ++ "/" ++ cfg
  if is_fast_environment then result ++ ".fast" else result

/-- Model of `_GetFilename` (lines 532–537): the deterministic cache path for
(root, configuration, fast). -/
def getFilename (repository_root : String) (configuration : Option String)
    (is_fast_environment : Bool) : String :=
  getActivationDir repository_root configuration is_fast_environment ++
    "/" ++ "EnvironmentActivation.json"

/-- The ambient activation context: the two environment variables consumed at
the top of Load (`DEVELOPMENT_ENVIRONMENT_REPOSITORY` and
`DEVELOPMENT_ENVIRONMENT_REPOSITORY_CONFIGURATION`). -/
structure OsEnv where
  de_repo_root : Option String
  de_repo_configuration : Option String
deriving DecidableEq, Repr

/-- Model of `ActivationData.Load` (lines 84–459): if not forced and the repository
environment variable is set (non-empty), it overrides the supplied root and
configuration; if not forced and the cache file exists, try to deserialize it,
returning the result on success and falling through to the full resolution on
any failure (`except: pass`); otherwise run the full resolution.  Load never
writes the cache — persisting is the separate `Save` method. -/
def load (env : Env) (osenv : OsEnv) (cache : CacheFs) (fuel : Nat)
    (repository_root : String) (configuration : Option String)
    (is_fast_environment : Bool) (force : Bool) : Except LoadError ActivationDataT :=
  let rc :=
    if !force && pyTruthy osenv.de_repo_root then
      (osenv.de_repo_root.getD "", osenv.de_repo_configuration)
    else
      (repository_root, configuration)
  let filename := getFilename rc.1 rc.2 is_fast_environment
  if !force then
    match cacheLookup cache filename with
    | some fd =>
        match deserializeActivationData fd with
        | .ok a => .ok a
        | .error _ => loadForce env fuel rc.1 rc.2 is_fast_environment
    | none => loadForce env fuel rc.1 rc.2 is_fast_environment
  else
    loadForce env fuel rc.1 rc.2 is_fast_environment

/-- Model of `ActivationData.Save` (lines 483–499): serialize the object as JSON to the
deterministic cache path for its own root, configuration and fast flag,
overwriting in place (the file is opened with mode "w" and written directly —
there is no temporary file and no rename). -/
def save (cache : CacheFs) (a : ActivationDataT) : CacheFs :=
  cacheWrite cache (getFilename a.Root a.Configuration a.IsFastEnvironment) (.valid a)

/-! Concrete environments used by examples, counterexamples and witnesses. -/

def noSpecs : VersionSpecsT := ⟨[], []⟩

/-- A single-configuration, non-configurable bootstrap descriptor. -/
def simpleBootstrap (deps : List DependencyInfo) (specs : VersionSpecsT)
    (fingerprint : List (String × String)) : EnvironmentBootstrapT :=
  { Configurations :=
      [(none, { Dependencies := deps, VersionSpecs := specs, Fingerprint := fingerprint,
                IgnoreConflictedRepositoryNames := none,
                IgnoreConflictedLibraryNames := none })],
    IsConfigurable := false, IsMixinRepo := false }

/-- The diamond of spec §8: root R depends on P and Q, and both P and Q depend
on S. -/
def diamondEnv : Env :=
  [ { root := "rootR", name := "R", id := "idR",
      bootstrap := simpleBootstrap [⟨"rootP", none⟩, ⟨"rootQ", none⟩] noSpecs
        [("rootR", "cR"), ("rootP", "cP"), ("rootQ", "cQ")],
      content := "cR" },
    { root := "rootP", name := "P", id := "idP",
      bootstrap := simpleBootstrap [⟨"rootS", none⟩] noSpecs [], content := "cP" },
    { root := "rootQ", name := "Q", id := "idQ",
      bootstrap := simpleBootstrap [⟨"rootS", none⟩] noSpecs [], content := "cQ" },
    { root := "rootS", name := "S", id := "idS",
      bootstrap := simpleBootstrap [] noSpecs [], content := "cS" } ]

/-- Descriptor of repository A: a single unconfigured configuration depending
on B. -/
def bootA : EnvironmentBootstrapT := simpleBootstrap [⟨"rootB", none⟩] noSpecs []

/-- Descriptor of repository B: a single unconfigured configuration depending
on A. -/
def bootB : EnvironmentBootstrapT := simpleBootstrap [⟨"rootA", none⟩] noSpecs []

def repoA : Repository := ⟨"idA", "A", "rootA", none, false⟩

def repoB : Repository := ⟨"idB", "B", "rootB", none, false⟩

/-- The dependency cycle of spec §8: A depends on B and B depends on A. -/
def cycleEnv : Env :=
  [ { root := "rootA", name := "A", id := "idA", bootstrap := bootA, content := "cA" },
    { root := "rootB", name := "B", id := "idB", bootstrap := bootB, content := "cB" } ]

/-- Registry states reachable while walking `cycleEnv`: whatever is registered
under the id of A (resp. B) carries the descriptor and Repository of A
(resp. B). -/
def CycleReg (reg : List (String × RegistryEntry)) : Prop :=
  (∀ e, lookupReg reg "idA" = some e → e.binfo = bootA ∧ e.Repo = repoA) ∧
  (∀ e, lookupReg reg "idB" = some e → e.binfo = bootB ∧ e.Repo = repoB)

/-- Walk states reachable while walking `cycleEnv` from A: the ignore-lists
stay empty (neither descriptor declares any) and the registry is consistent. -/
def CycleInv (st : WalkState) : Prop :=
  st.ignore_conflicted_repository_names = [] ∧
  st.ignore_conflicted_library_names = [] ∧
  CycleReg st.repositories

/-- A single-configuration descriptor with explicit ignore-lists. -/
def bootstrapWithIgnores (deps : List DependencyInfo) (specs : VersionSpecsT)
    (fingerprint : List (String × String)) (ignRepos ignLibs : Option (List String)) :
    EnvironmentBootstrapT :=
  { Configurations :=
      [(none, { Dependencies := deps, VersionSpecs := specs, Fingerprint := fingerprint,
                IgnoreConflictedRepositoryNames := ignRepos,
                IgnoreConflictedLibraryNames := ignLibs })],
    IsConfigurable := false, IsMixinRepo := false }

/-- The diamond extended one level: R depends on P and Q, P and Q depend on
S, and S depends on T.  If repeat visits did not recurse, T would be reached
once (accumulating priority 4); the source walks the dependencies of S on both
visits, so T accumulates 4 + 4 = 8. -/
def diamondDeepEnv : Env :=
  [ { root := "rootR", name := "R", id := "idR",
      bootstrap := simpleBootstrap [⟨"rootP", none⟩, ⟨"rootQ", none⟩] noSpecs
        [("rootR", "cR"), ("rootP", "cP"), ("rootQ", "cQ")],
      content := "cR" },
    { root := "rootP", name := "P", id := "idP",
      bootstrap := simpleBootstrap [⟨"rootS", none⟩] noSpecs [], content := "cP" },
    { root := "rootQ", name := "Q", id := "idQ",
      bootstrap := simpleBootstrap [⟨"rootS", none⟩] noSpecs [], content := "cQ" },
    { root := "rootS", name := "S", id := "idS",
      bootstrap := simpleBootstrap [⟨"rootT", none⟩] noSpecs [], content := "cS" },
    { root := "rootT", name := "T", id := "idT",
      bootstrap := simpleBootstrap [] noSpecs [], content := "cT" } ]

/-- Root L depends on M and N; M and N both declare python library X, at
different versions, and the root declares no ignore-list. -/
def libConflictEnv : Env :=
  [ { root := "rootL", name := "L", id := "idL",
      bootstrap := simpleBootstrap [⟨"rootM", none⟩, ⟨"rootN", none⟩] noSpecs
        [("rootL", "cL"), ("rootM", "cM"), ("rootN", "cN")],
      content := "cL" },
    { root := "rootM", name := "M", id := "idM",
      bootstrap := simpleBootstrap [] ⟨[], [("python", [⟨"X", "1.0"⟩])]⟩ [],
      content := "cM" },
    { root := "rootN", name := "N", id := "idN",
      bootstrap := simpleBootstrap [] ⟨[], [("python", [⟨"X", "2.0"⟩])]⟩ [],
      content := "cN" } ]

/-- Same as `libConflictEnv`, but the root ignore-lists library name X. -/
def libIgnoredEnv : Env :=
  [ { root := "rootL", name := "L", id := "idL",
      bootstrap := bootstrapWithIgnores [⟨"rootM", none⟩, ⟨"rootN", none⟩] noSpecs
        [("rootL", "cL"), ("rootM", "cM"), ("rootN", "cN")] none (some ["X"]),
      content := "cL" },
    { root := "rootM", name := "M", id := "idM",
      bootstrap := simpleBootstrap [] ⟨[], [("python", [⟨"X", "1.0"⟩])]⟩ [],
      content := "cM" },
    { root := "rootN", name := "N", id := "idN",
      bootstrap := simpleBootstrap [] ⟨[], [("python", [⟨"X", "2.0"⟩])]⟩ [],
      content := "cN" } ]

/-- Root L depends on M and N; M and N declare tool T at different versions,
and the root even lists T in its library ignore-list (tools are never
ignorable, so the conflict must still be fatal). -/
def toolConflictEnv : Env :=
  [ { root := "rootL", name := "L", id := "idL",
      bootstrap := bootstrapWithIgnores [⟨"rootM", none⟩, ⟨"rootN", none⟩] noSpecs
        [("rootL", "cL"), ("rootM", "cM"), ("rootN", "cN")] none (some ["T"]),
      content := "cL" },
    { root := "rootM", name := "M", id := "idM",
      bootstrap := simpleBootstrap [] ⟨[⟨"T", "1.0"⟩], []⟩ [], content := "cM" },
    { root := "rootN", name := "N", id := "idN",
      bootstrap := simpleBootstrap [] ⟨[⟨"T", "2.0"⟩], []⟩ [], content := "cN" } ]

/-- Root F depends on G, fingerprints as captured at setup. -/
def fpEnv : Env :=
  [ { root := "rootF", name := "F", id := "idF",
      bootstrap := simpleBootstrap [⟨"rootG", none⟩] noSpecs
        [("rootF", "cF"), ("rootG", "cG")],
      content := "cF" },
    { root := "rootG", name := "G", id := "idG",
      bootstrap := simpleBootstrap [] noSpecs [], content := "cG" } ]

/-- Copy of `fpEnv` after a file under the dependency root G was mutated: the content
of G differs from what the fingerprint captured at setup time. -/
def fpEnvMutated : Env :=
  [ { root := "rootF", name := "F", id := "idF",
      bootstrap := simpleBootstrap [⟨"rootG", none⟩] noSpecs
        [("rootF", "cF"), ("rootG", "cG")],
      content := "cF" },
    { root := "rootG", name := "G", id := "idG",
      bootstrap := simpleBootstrap [] noSpecs [], content := "cG-mutated" } ]

/-- A one-repository world with a consistent fingerprint. -/
def singleEnv : Env :=
  [ { root := "rootX", name := "X", id := "idX",
      bootstrap := simpleBootstrap [] noSpecs [("rootX", "cX")], content := "cX" } ]

/-- The resolution result for `singleEnv`. -/
def singleAD : ActivationDataT :=
  { Id := "idX", Root := "rootX", IsMixinRepo := false, Configuration := none,
    IsFastEnvironment := false,
    PrioritizedRepositories := [⟨"idX", "X", "rootX", none, false⟩],
    VersionSpecs := noSpecs, IgnoreConflictedLibraryNames := [] }

/-- An unactivated shell: neither repository environment variable is set. -/
def noOsEnv : OsEnv := ⟨none, none⟩

/-- The resolution result for `diamondEnv`: S outranks P and Q, the root R
comes last. -/
def diamondAD : ActivationDataT :=
  { Id := "idR", Root := "rootR", IsMixinRepo := false, Configuration := none,
    IsFastEnvironment := false,
    PrioritizedRepositories :=
      [⟨"idS", "S", "rootS", none, false⟩, ⟨"idP", "P", "rootP", none, false⟩,
       ⟨"idQ", "Q", "rootQ", none, false⟩, ⟨"idR", "R", "rootR", none, false⟩],
    VersionSpecs := noSpecs, IgnoreConflictedLibraryNames := [] }

/-- Model of `ActivationData.Load` together with its effect on the on-disk cache.  The
source method only ever reads the cache file; it contains no call to `Save`
and no other write, so the cache comes back unchanged whatever path is
taken. -/
def loadST (env : Env) (osenv : OsEnv) (cache : CacheFs) (fuel : Nat)
    (repository_root : String) (configuration : Option String)
    (is_fast_environment : Bool) (force : Bool) :
    Except LoadError (ActivationDataT × CacheFs) :=
  (load env osenv cache fuel repository_root configuration is_fast_environment force).map
    (fun a => (a, cache))

/-- The resolution result for `fpEnv` (computed at setup time, before the
mutation): G outranks F, the root F comes last. -/
def fpAD : ActivationDataT :=
  { Id := "idF", Root := "rootF", IsMixinRepo := false, Configuration := none,
    IsFastEnvironment := false,
    PrioritizedRepositories :=
      [⟨"idG", "G", "rootG", none, false⟩, ⟨"idF", "F", "rootF", none, false⟩],
    VersionSpecs := noSpecs, IgnoreConflictedLibraryNames := [] }

/-- A cache holding corrupted bytes at the cache path of `singleEnv`. -/
def junkCache : CacheFs := [(getFilename "rootX" none false, .junk "truncated bytes")]

/-- The registry well-formedness invariant of the walk: the registry is keyed
by repository id — keys are pairwise distinct, and every entry stores the
Repository whose Id is its key. -/
def RegWF (reg : List (String × RegistryEntry)) : Prop :=
  (reg.map Prod.fst).Nodup ∧ ∀ p ∈ reg, p.2.Repo.Id = p.1

/-! Helper lemmas about the registry, the sort, and the cache. -/

lemma lookupReg_cons (p : String × RegistryEntry) (reg : List (String × RegistryEntry))
    (k : String) :
    lookupReg (p :: reg) k = if p.1 = k then some p.2 else lookupReg reg k := by
  by_cases h : p.1 = k <;> simp [lookupReg, List.find?_cons, h]

lemma lookupReg_eq_none (reg : List (String × RegistryEntry)) (k : String) :
    lookupReg reg k = none ↔ k ∉ reg.map Prod.fst := by
  induction reg with
  | nil => simp [lookupReg]
  | cons p reg ih =>
      rw [lookupReg_cons]
      by_cases h : p.1 = k
      · simp [h]
      · rw [if_neg h, ih]
        simp only [List.map_cons, List.mem_cons, not_or]
        constructor
        · intro hnk
          exact ⟨fun hk => h hk.symm, hnk⟩
        · exact And.right

lemma lookupReg_append_some {reg : List (String × RegistryEntry)} {k : String}
    {e : RegistryEntry} (l : List (String × RegistryEntry))
    (h : lookupReg reg k = some e) : lookupReg (reg ++ l) k = some e := by
  induction reg with
  | nil => simp [lookupReg] at h
  | cons p reg ih =>
      rw [lookupReg_cons] at h
      rw [List.cons_append, lookupReg_cons]
      by_cases hp : p.1 = k
      · rw [if_pos hp] at h ⊢; exact h
      · rw [if_neg hp] at h ⊢; exact ih h

lemma lookupReg_append_none {reg : List (String × RegistryEntry)} {k : String}
    (l : List (String × RegistryEntry))
    (h : lookupReg reg k = none) : lookupReg (reg ++ l) k = lookupReg l k := by
  induction reg with
  | nil => simp
  | cons p reg ih =>
      rw [lookupReg_cons] at h
      rw [List.cons_append, lookupReg_cons]
      by_cases hp : p.1 = k
      · rw [if_pos hp] at h; cases h
      · rw [if_neg hp] at h ⊢; exact ih h

lemma lookupReg_updateReg (reg : List (String × RegistryEntry)) (k k' : String)
    (f : RegistryEntry → RegistryEntry) :
    lookupReg (updateReg reg k f) k' =
      if k = k' then (lookupReg reg k').map f else lookupReg reg k' := by
  induction reg with
  | nil => by_cases h : k = k' <;> simp [lookupReg, updateReg, h]
  | cons p reg ih =>
      simp only [updateReg, List.map_cons] at ih ⊢
      by_cases hpk : p.1 = k
      · rw [if_pos (beq_iff_eq.mpr hpk)]
        by_cases hk : k = k'
        · rw [lookupReg_cons, lookupReg_cons, if_pos (hpk.trans hk), if_pos hk,
            if_pos (hpk.trans hk)]
          rfl
        · have hpk' : ¬ p.1 = k' := fun hc => hk ((hpk.symm.trans hc))
          rw [lookupReg_cons, lookupReg_cons, if_neg hpk', if_neg hpk', if_neg hk, ih,
            if_neg hk]
      · rw [if_neg (by simpa using hpk)]
        by_cases hpk' : p.1 = k'
        · have hk : ¬ k = k' := fun hc => hpk (hpk'.trans hc.symm)
          rw [lookupReg_cons, lookupReg_cons, if_pos hpk', if_pos hpk', if_neg hk]
        · rw [lookupReg_cons, lookupReg_cons, if_neg hpk', if_neg hpk', ih]

lemma map_fst_updateReg (reg : List (String × RegistryEntry)) (k : String)
    (f : RegistryEntry → RegistryEntry) :
    (updateReg reg k f).map Prod.fst = reg.map Prod.fst := by
  induction reg with
  | nil => rfl
  | cons p reg ih =>
      simp only [updateReg, List.map_cons] at ih ⊢
      by_cases h : p.1 = k
      · rw [if_pos (beq_iff_eq.mpr h), ih]
      · rw [if_neg (by simpa using h), ih]

lemma regWF_updateReg {reg : List (String × RegistryEntry)} {k : String}
    {f : RegistryEntry → RegistryEntry} (h : RegWF reg)
    (hf : ∀ e, (f e).Repo = e.Repo) : RegWF (updateReg reg k f) := by
  constructor
  · rw [map_fst_updateReg]; exact h.1
  · intro p hp
    simp only [updateReg, List.mem_map] at hp
    obtain ⟨q, hq, hqe⟩ := hp
    have hrepo := h.2 q hq
    by_cases hcond : q.1 = k
    · rw [if_pos (beq_iff_eq.mpr hcond)] at hqe
      subst hqe
      simpa [hf] using hrepo
    · rw [if_neg (by simpa using hcond)] at hqe
      subst hqe
      exact hrepo

lemma regWF_append_new {reg : List (String × RegistryEntry)} (h : RegWF reg)
    {repo : Repository} (hnone : lookupReg reg repo.Id = none)
    (binfo : EnvironmentBootstrapT) (rr : Option Repository) :
    RegWF (reg ++ [(repo.Id, ⟨binfo, repo, rr, 0⟩)]) := by
  rw [lookupReg_eq_none] at hnone
  constructor
  · rw [List.map_append]
    refine List.Nodup.append h.1 (by simp) ?_
    intro a ha
    simp only [List.map_cons, List.map_nil, List.mem_singleton]
    intro hEq
    subst hEq
    exact hnone ha
  · intro p hp
    rcases List.mem_append.1 hp with hin | hin
    · exact h.2 p hin
    · simp only [List.mem_singleton] at hin
      subst hin
      rfl

lemma insertDescending_perm (x : String × RegistryEntry)
    (l : List (String × RegistryEntry)) :
    List.Perm (insertDescending x l) (x :: l) := by
  induction l with
  | nil => exact List.Perm.refl _
  | cons y ys ih =>
      rw [insertDescending]
      by_cases h : x.2.priority_modifier > y.2.priority_modifier
      · rw [if_pos h]
      · rw [if_neg h]
        exact List.Perm.trans (List.Perm.cons y ih) (List.Perm.swap x y ys)

lemma sortDescending_perm (l : List (String × RegistryEntry)) :
    List.Perm (sortDescending l) l := by
  suffices h : ∀ acc, List.Perm (l.foldl (fun a x => insertDescending x a) acc) (l ++ acc) by
    simpa [sortDescending] using h []
  induction l with
  | nil => intro acc; simp
  | cons x xs ih =>
      intro acc
      rw [List.foldl_cons]
      refine List.Perm.trans (ih _) ?_
      refine List.Perm.trans (List.Perm.append_left xs (insertDescending_perm x acc)) ?_
      exact List.perm_middle

lemma except_bind_ok {α β : Type} {e : Except LoadError α} {f : α → Except LoadError β}
    {b : β} (h : (e >>= f) = .ok b) : ∃ a, e = .ok a ∧ f a = .ok b := by
  cases e with
  | error err => simp [Bind.bind, Except.bind] at h
  | ok a => exact ⟨a, rfl, by simpa [Bind.bind, Except.bind] using h⟩

lemma registerAndBump_ok {env : Env} {ref : Option Repository} {repo : Repository}
    {pm : Nat} {st st' : WalkState}
    (h : registerAndBump env ref repo pm st = .ok st') :
    ∃ reg1,
      st' = { st with repositories := updateReg reg1 repo.Id (bumpPriority pm) } ∧
      (((lookupReg st.repositories repo.Id).isSome ∧ reg1 = st.repositories) ∨
       (∃ binfo, lookupReg st.repositories repo.Id = none ∧
         environmentBootstrapLoad env repo.Root = .ok binfo ∧
         reg1 = st.repositories ++ [(repo.Id, ⟨binfo, repo, ref, 0⟩)])) := by
  unfold registerAndBump at h
  dsimp only at h
  by_cases hl : (lookupReg st.repositories repo.Id).isNone
  · rw [if_pos hl] at h
    cases hb : environmentBootstrapLoad env repo.Root with
    | error e => rw [hb] at h; simp [Except.map] at h
    | ok binfo =>
        rw [hb] at h
        simp only [Except.map, Except.ok.injEq] at h
        refine ⟨st.repositories ++ [(repo.Id, ⟨binfo, repo, ref, 0⟩)], h.symm, Or.inr ?_⟩
        exact ⟨binfo, by simpa using hl, rfl, rfl⟩
  · rw [if_neg hl] at h
    simp only [Except.map, Except.ok.injEq] at h
    refine ⟨st.repositories, h.symm, Or.inl ?_⟩
    exact ⟨by simpa [Option.isSome_iff_ne_none] using hl, rfl⟩

lemma registerAndBump_WF {env : Env} {ref : Option Repository} {repo : Repository}
    {pm : Nat} {st st' : WalkState} (hwf : RegWF st.repositories)
    (h : registerAndBump env ref repo pm st = .ok st') : RegWF st'.repositories := by
  obtain ⟨reg1, hst, hcase⟩ := registerAndBump_ok h
  subst hst
  have hreg1 : RegWF reg1 := by
    rcases hcase with ⟨_, rfl⟩ | ⟨binfo, hnone, _, rfl⟩
    · exact hwf
    · exact regWF_append_new hwf hnone binfo ref
  exact regWF_updateReg hreg1 (fun e => rfl)

lemma captureIgnoreLists_ok {root : String} {repo : Repository}
    {binfo : EnvironmentBootstrapT} {st st' : WalkState}
    (h : captureIgnoreLists root repo binfo st = .ok st') :
    st'.repositories = st.repositories := by
  unfold captureIgnoreLists at h
  by_cases hc : (repo.Root == root && binfo.Configurations.length == 1 &&
      binfo.Configurations.any (fun p => p.1 == none)) = true
  · rw [if_pos hc] at h
    by_cases hne : st.ignore_conflicted_repository_names ≠ [] ∨
        st.ignore_conflicted_library_names ≠ []
    · rw [if_pos hne] at h; cases h
    · rw [if_neg hne] at h
      cases hcfg : lookupConfig binfo none with
      | none => rw [hcfg] at h; cases h
      | some cfg =>
          rw [hcfg] at h
          simp only [Except.ok.injEq] at h
          subst h
          rfl
  · rw [if_neg hc] at h
    simp only [Except.ok.injEq] at h
    subst h
    rfl

lemma mergeVersionSpecs_ok {cfg : ConfigurationInfo} {st st' : WalkState}
    (h : mergeVersionSpecs cfg st = .ok st') :
    st'.repositories = st.repositories ∧
    st'.ignore_conflicted_repository_names = st.ignore_conflicted_repository_names ∧
    st'.ignore_conflicted_library_names = st.ignore_conflicted_library_names := by
  unfold mergeVersionSpecs at h
  obtain ⟨tools, _, h2⟩ := except_bind_ok h
  obtain ⟨libs, _, h3⟩ := except_bind_ok h2
  simp only [pure, Except.pure, Except.ok.injEq] at h3
  subst h3
  exact ⟨rfl, rfl, rfl⟩

lemma walkFn_WF {env : Env} {root : String} :
    ∀ (fuel : Nat) (c : WalkCall) (st st' : WalkState),
      RegWF st.repositories → walkFn env root fuel c st = .ok st' →
      RegWF st'.repositories := by
  intro fuel
  induction fuel with
  | zero =>
      intro c st st' _ h
      simp [walkFn] at h
  | succ fuel ih =>
      intro c st st' hwf h
      cases c with
      | node ref repo pm =>
          rw [walkFn] at h
          obtain ⟨st1, h1, h2⟩ := except_bind_ok h
          have hwf1 := registerAndBump_WF hwf h1
          cases hl : lookupReg st1.repositories repo.Id with
          | none => rw [hl] at h2; cases h2
          | some entry =>
              rw [hl] at h2
              obtain ⟨st2, hcap, h3⟩ := except_bind_ok h2
              have hwf2 : RegWF st2.repositories := by
                rw [captureIgnoreLists_ok hcap]; exact hwf1
              obtain ⟨u, hchk, h4⟩ := except_bind_ok h3
              cases hcfg : lookupConfig entry.binfo repo.Configuration with
              | none => rw [hcfg] at h4; cases h4
              | some cfg =>
                  rw [hcfg] at h4
                  obtain ⟨st3, hmrg, h5⟩ := except_bind_ok h4
                  have hwf3 : RegWF st3.repositories := by
                    rw [(mergeVersionSpecs_ok hmrg).1]; exact hwf2
                  exact ih _ st3 st' hwf3 h5
      | deps repo np rest =>
          cases rest with
          | nil =>
              rw [walkFn] at h
              simp only [Except.ok.injEq] at h
              subst h
              exact hwf
          | cons d ds =>
              rw [walkFn] at h
              obtain ⟨depRepo, hcr, h1⟩ := except_bind_ok h
              obtain ⟨st1, hw1, h2⟩ := except_bind_ok h1
              exact ih _ st1 st' (ih _ st st1 hwf hw1) h2

lemma loadForce_ok_inv {env : Env} {fuel : Nat} {root : String} {cfg : Option String}
    {fast : Bool} {ad : ActivationDataT}
    (h : loadForce env fuel root cfg fast = .ok ad) :
    ∃ this st, repositoryCreate env root cfg = .ok this ∧
      walk env root fuel none this 1 initialWalkState = .ok st ∧
      ad.PrioritizedRepositories = (sortDescending st.repositories).map (fun p => p.2.Repo) := by
  unfold loadForce at h
  by_cases hd : (findDiskRepo env root).isNone
  · rw [if_pos hd] at h; cases h
  · rw [if_neg hd] at h
    obtain ⟨this, hcr, h1⟩ := except_bind_ok h
    obtain ⟨st, hw, h2⟩ := except_bind_ok h1
    refine ⟨this, st, hcr, hw, ?_⟩
    dsimp only at h2
    cases hlast : (sortDescending st.repositories).getLast? with
    | none => rw [hlast] at h2; cases h2
    | some last =>
        rw [hlast] at h2
        dsimp only at h2
        cases hcfg : lookupConfig last.2.binfo cfg with
        | none => rw [hcfg] at h2; cases h2
        | some this_configuration =>
            rw [hcfg] at h2
            dsimp only at h2
            by_cases hfp : (!(fingerprintsEqual this_configuration.Fingerprint
                (calculateFingerprint env
                  (root :: this_configuration.Dependencies.map (fun x => x.RepositoryRoot))
                  root))) = true
            · rw [if_pos hfp] at h2; cases h2
            · rw [if_neg hfp] at h2
              simp only [Except.ok.injEq] at h2
              subst h2
              rfl

lemma registerAndBump_none {env : Env} {ref : Option Repository} {repo : Repository}
    {pm : Nat} {st : WalkState} {binfo : EnvironmentBootstrapT}
    (hl : lookupReg st.repositories repo.Id = none)
    (hb : environmentBootstrapLoad env repo.Root = .ok binfo) :
    registerAndBump env ref repo pm st =
      .ok ⟨updateReg (st.repositories ++ [(repo.Id, ⟨binfo, repo, ref, 0⟩)])
             repo.Id (bumpPriority pm),
           st.tool_version_info, st.library_version_info,
           st.ignore_conflicted_repository_names, st.ignore_conflicted_library_names⟩ := by
  unfold registerAndBump
  dsimp only
  rw [hl, hb]
  rfl

lemma registerAndBump_some {env : Env} {ref : Option Repository} {repo : Repository}
    {pm : Nat} {st : WalkState} {e : RegistryEntry}
    (hl : lookupReg st.repositories repo.Id = some e) :
    registerAndBump env ref repo pm st =
      .ok { st with repositories := updateReg st.repositories repo.Id (bumpPriority pm) } := by
  unfold registerAndBump
  dsimp only
  rw [hl]
  rfl

lemma cycleReg_updateReg {reg : List (String × RegistryEntry)} (h : CycleReg reg)
    (k : String) (pm : Nat) : CycleReg (updateReg reg k (bumpPriority pm)) := by
  constructor <;> intro e he <;> rw [lookupReg_updateReg] at he
  · by_cases hk : k = "idA"
    · rw [if_pos hk] at he
      cases hl : lookupReg reg "idA" with
      | none => rw [hl] at he; cases he
      | some e0 =>
          rw [hl] at he
          injection he with he'
          subst he'
          exact h.1 e0 hl
    · rw [if_neg hk] at he
      exact h.1 e he
  · by_cases hk : k = "idB"
    · rw [if_pos hk] at he
      cases hl : lookupReg reg "idB" with
      | none => rw [hl] at he; cases he
      | some e0 =>
          rw [hl] at he
          injection he with he'
          subst he'
          exact h.2 e0 hl
    · rw [if_neg hk] at he
      exact h.2 e he

lemma cycleReg_appendA {reg : List (String × RegistryEntry)} (h : CycleReg reg)
    (hnone : lookupReg reg "idA" = none) (rr : Option Repository) :
    CycleReg (reg ++ [("idA", ⟨bootA, repoA, rr, 0⟩)]) := by
  constructor <;> intro e he
  · rw [lookupReg_append_none _ hnone] at he
    have hred : lookupReg [("idA", (⟨bootA, repoA, rr, 0⟩ : RegistryEntry))] "idA" =
        some ⟨bootA, repoA, rr, 0⟩ := rfl
    rw [hred] at he
    injection he with he'
    subst he'
    exact ⟨rfl, rfl⟩
  · cases hl : lookupReg reg "idB" with
    | none =>
        rw [lookupReg_append_none _ hl] at he
        have hred : lookupReg [("idA", (⟨bootA, repoA, rr, 0⟩ : RegistryEntry))] "idB" =
            none := rfl
        rw [hred] at he
        cases he
    | some e0 =>
        rw [lookupReg_append_some _ hl] at he
        injection he with he'
        subst he'
        exact h.2 e0 hl

lemma cycleReg_appendB {reg : List (String × RegistryEntry)} (h : CycleReg reg)
    (hnone : lookupReg reg "idB" = none) (rr : Option Repository) :
    CycleReg (reg ++ [("idB", ⟨bootB, repoB, rr, 0⟩)]) := by
  constructor <;> intro e he
  · cases hl : lookupReg reg "idA" with
    | none =>
        rw [lookupReg_append_none _ hl] at he
        have hred : lookupReg [("idB", (⟨bootB, repoB, rr, 0⟩ : RegistryEntry))] "idA" =
            none := rfl
        rw [hred] at he
        cases he
    | some e0 =>
        rw [lookupReg_append_some _ hl] at he
        injection he with he'
        subst he'
        exact h.1 e0 hl
  · rw [lookupReg_append_none _ hnone] at he
    have hred : lookupReg [("idB", (⟨bootB, repoB, rr, 0⟩ : RegistryEntry))] "idB" =
        some ⟨bootB, repoB, rr, 0⟩ := rfl
    rw [hred] at he
    injection he with he'
    subst he'
    exact ⟨rfl, rfl⟩

lemma captureIgnoreLists_rootA {st : WalkState}
    (h1 : st.ignore_conflicted_repository_names = [])
    (h2 : st.ignore_conflicted_library_names = []) :
    captureIgnoreLists "rootA" repoA bootA st = .ok st := by
  obtain ⟨repos, tools, libs, ign1, ign2⟩ := st
  simp only at h1 h2
  subst h1
  subst h2
  unfold captureIgnoreLists
  simp [lookupConfig, bootA, simpleBootstrap, noSpecs, repoA]

lemma captureIgnoreLists_notRootA (st : WalkState) :
    captureIgnoreLists "rootA" repoB bootB st = .ok st := rfl

lemma visitChecks_cycleA (st : WalkState) : visitChecks repoA bootA repoA st = .ok () := rfl

lemma visitChecks_cycleB (st : WalkState) : visitChecks repoB bootB repoB st = .ok () := rfl

lemma bind_ok {α β : Type} (a : α) (f : α → Except LoadError β) :
    (Except.ok a >>= f) = f a := rfl

lemma bind_error {α β : Type} (e : LoadError) (f : α → Except LoadError β) :
    ((Except.error e : Except LoadError α) >>= f) = .error e := rfl

/-- The continuation of a visit of A in the cycle, after registration and the
registry lookup: the remaining steps succeed without changing the state, and
the walk re-enters the dependency list of A. -/
lemma cycle_visit_tail_A (fuel pm : Nat) (stR : WalkState) (hInvR : CycleInv stR)
    (ih : ∀ r pm st, CycleInv st →
      walkFn cycleEnv "rootA" fuel (.deps r pm [⟨"rootB", none⟩]) st = .error .outOfFuel) :
    (do
      let st ← captureIgnoreLists "rootA" repoA bootA stR
      let _ ← visitChecks repoA bootA repoA st
      match lookupConfig bootA repoA.Configuration with
      | none => .error .keyError
      | some cfg => do
        let st ← mergeVersionSpecs cfg st
        walkFn cycleEnv "rootA" fuel (.deps repoA (pm + 1) cfg.Dependencies) st) =
    .error .outOfFuel := by
  obtain ⟨hi1, hi2, hreg⟩ := hInvR
  rw [captureIgnoreLists_rootA hi1 hi2]
  simp only [bind_ok]
  rw [visitChecks_cycleA]
  simp only [bind_ok]
  show (match lookupConfig bootA repoA.Configuration with
      | none => Except.error LoadError.keyError
      | some cfg => do
        let st ← mergeVersionSpecs cfg stR
        walkFn cycleEnv "rootA" fuel (.deps repoA (pm + 1) cfg.Dependencies) st) =
    Except.error LoadError.outOfFuel
  rw [show lookupConfig bootA repoA.Configuration =
    some ⟨[⟨"rootB", none⟩], ⟨[], []⟩, [], none, none⟩ from rfl]
  show (do
      let st ← mergeVersionSpecs ⟨[⟨"rootB", none⟩], ⟨[], []⟩, [], none, none⟩ stR
      walkFn cycleEnv "rootA" fuel (.deps repoA (pm + 1) [⟨"rootB", none⟩]) st) =
    Except.error LoadError.outOfFuel
  rw [show mergeVersionSpecs ⟨[⟨"rootB", none⟩], ⟨[], []⟩, [], none, none⟩ stR =
    .ok stR from rfl]
  simp only [bind_ok]
  exact ih repoA (pm + 1) stR ⟨hi1, hi2, hreg⟩

/-- The continuation of a visit of B in the cycle. -/
lemma cycle_visit_tail_B (fuel pm : Nat) (stR : WalkState) (hInvR : CycleInv stR)
    (ih : ∀ r pm st, CycleInv st →
      walkFn cycleEnv "rootA" fuel (.deps r pm [⟨"rootA", none⟩]) st = .error .outOfFuel) :
    (do
      let st ← captureIgnoreLists "rootA" repoB bootB stR
      let _ ← visitChecks repoB bootB repoB st
      match lookupConfig bootB repoB.Configuration with
      | none => .error .keyError
      | some cfg => do
        let st ← mergeVersionSpecs cfg st
        walkFn cycleEnv "rootA" fuel (.deps repoB (pm + 1) cfg.Dependencies) st) =
    .error .outOfFuel := by
  obtain ⟨hi1, hi2, hreg⟩ := hInvR
  rw [captureIgnoreLists_notRootA]
  simp only [bind_ok]
  rw [visitChecks_cycleB]
  simp only [bind_ok]
  show (match lookupConfig bootB repoB.Configuration with
      | none => Except.error LoadError.keyError
      | some cfg => do
        let st ← mergeVersionSpecs cfg stR
        walkFn cycleEnv "rootA" fuel (.deps repoB (pm + 1) cfg.Dependencies) st) =
    Except.error LoadError.outOfFuel
  rw [show lookupConfig bootB repoB.Configuration =
    some ⟨[⟨"rootA", none⟩], ⟨[], []⟩, [], none, none⟩ from rfl]
  show (do
      let st ← mergeVersionSpecs ⟨[⟨"rootA", none⟩], ⟨[], []⟩, [], none, none⟩ stR
      walkFn cycleEnv "rootA" fuel (.deps repoB (pm + 1) [⟨"rootA", none⟩]) st) =
    Except.error LoadError.outOfFuel
  rw [show mergeVersionSpecs ⟨[⟨"rootA", none⟩], ⟨[], []⟩, [], none, none⟩ stR =
    .ok stR from rfl]
  simp only [bind_ok]
  exact ih repoB (pm + 1) stR ⟨hi1, hi2, hreg⟩

/-- Walking either node of the two-repository cycle runs out of every fuel
bound: every visit of A re-enters B, and every visit of B re-enters A — the
registry memoizes only the descriptor load, not the recursion. -/
lemma cycle_diverges (fuel : Nat) :
    (∀ ref pm st, CycleInv st →
      walkFn cycleEnv "rootA" fuel (.node ref repoA pm) st = .error .outOfFuel) ∧
    (∀ ref pm st, CycleInv st →
      walkFn cycleEnv "rootA" fuel (.node ref repoB pm) st = .error .outOfFuel) ∧
    (∀ r pm st, CycleInv st →
      walkFn cycleEnv "rootA" fuel (.deps r pm [⟨"rootB", none⟩]) st = .error .outOfFuel) ∧
    (∀ r pm st, CycleInv st →
      walkFn cycleEnv "rootA" fuel (.deps r pm [⟨"rootA", none⟩]) st = .error .outOfFuel) := by
  induction fuel with
  | zero =>
      exact ⟨fun _ _ _ _ => rfl, fun _ _ _ _ => rfl, fun _ _ _ _ => rfl, fun _ _ _ _ => rfl⟩
  | succ fuel ih =>
      obtain ⟨ihA, ihB, ihDB, ihDA⟩ := ih
      refine ⟨?_, ?_, ?_, ?_⟩
      · -- visiting node A
        intro ref pm st hInv
        obtain ⟨hi1, hi2, hreg⟩ := hInv
        simp only [walkFn]
        cases hl : lookupReg st.repositories repoA.Id with
        | none =>
            rw [registerAndBump_none hl
              (rfl : environmentBootstrapLoad cycleEnv repoA.Root = .ok bootA)]
            simp only [bind_ok]
            have hlook : lookupReg
                (updateReg (st.repositories ++ [(repoA.Id, ⟨bootA, repoA, ref, 0⟩)])
                  repoA.Id (bumpPriority pm)) repoA.Id =
                some (bumpPriority pm ⟨bootA, repoA, ref, 0⟩) := by
              rw [lookupReg_updateReg, if_pos rfl, lookupReg_append_none _ hl]
              rfl
            rw [hlook]
            dsimp only [bumpPriority]
            exact cycle_visit_tail_A fuel pm _
              ⟨hi1, hi2, cycleReg_updateReg (cycleReg_appendA hreg hl ref) _ pm⟩ ihDB
        | some e =>
            obtain ⟨hbinfo, hRepo⟩ := hreg.1 e hl
            rw [registerAndBump_some hl]
            simp only [bind_ok]
            have hlook : lookupReg (updateReg st.repositories repoA.Id (bumpPriority pm))
                repoA.Id = some (bumpPriority pm e) := by
              rw [lookupReg_updateReg, if_pos rfl, hl]
              rfl
            rw [hlook]
            dsimp only [bumpPriority]
            rw [hbinfo, hRepo]
            exact cycle_visit_tail_A fuel pm _
              ⟨hi1, hi2, cycleReg_updateReg hreg _ pm⟩ ihDB
      · -- visiting node B
        intro ref pm st hInv
        obtain ⟨hi1, hi2, hreg⟩ := hInv
        simp only [walkFn]
        cases hl : lookupReg st.repositories repoB.Id with
        | none =>
            rw [registerAndBump_none hl
              (rfl : environmentBootstrapLoad cycleEnv repoB.Root = .ok bootB)]
            simp only [bind_ok]
            have hlook : lookupReg
                (updateReg (st.repositories ++ [(repoB.Id, ⟨bootB, repoB, ref, 0⟩)])
                  repoB.Id (bumpPriority pm)) repoB.Id =
                some (bumpPriority pm ⟨bootB, repoB, ref, 0⟩) := by
              rw [lookupReg_updateReg, if_pos rfl, lookupReg_append_none _ hl]
              rfl
            rw [hlook]
            dsimp only [bumpPriority]
            exact cycle_visit_tail_B fuel pm _
              ⟨hi1, hi2, cycleReg_updateReg (cycleReg_appendB hreg hl ref) _ pm⟩ ihDA
        | some e =>
            obtain ⟨hbinfo, hRepo⟩ := hreg.2 e hl
            rw [registerAndBump_some hl]
            simp only [bind_ok]
            have hlook : lookupReg (updateReg st.repositories repoB.Id (bumpPriority pm))
                repoB.Id = some (bumpPriority pm e) := by
              rw [lookupReg_updateReg, if_pos rfl, hl]
              rfl
            rw [hlook]
            dsimp only [bumpPriority]
            rw [hbinfo, hRepo]
            exact cycle_visit_tail_B fuel pm _
              ⟨hi1, hi2, cycleReg_updateReg hreg _ pm⟩ ihDA
      · -- the dependency list [B] of a visit of A
        intro r pm st hInv
        simp only [walkFn]
        rw [show repositoryCreate cycleEnv "rootB" none = Except.ok repoB from rfl]
        simp only [bind_ok]
        rw [ihB (some r) pm st hInv]
        simp only [bind_error]
      · -- the dependency list [A] of a visit of B
        intro r pm st hInv
        simp only [walkFn]
        rw [show repositoryCreate cycleEnv "rootA" none = Except.ok repoA from rfl]
        simp only [bind_ok]
        rw [ihA (some r) pm st hInv]
        simp only [bind_error]

/-- The forced resolution of the cyclic world exhausts every fuel bound. -/
lemma loadForce_cycle (fuel : Nat) (fast : Bool) :
    loadForce cycleEnv fuel "rootA" none fast = .error .outOfFuel := by
  unfold loadForce
  rw [if_neg (by decide : ¬((findDiskRepo cycleEnv "rootA").isNone = true))]
  rw [show repositoryCreate cycleEnv "rootA" none = Except.ok repoA from rfl]
  simp only [bind_ok]
  have hCR : CycleReg initialWalkState.repositories := by
    constructor <;> intro e he <;> simp [lookupReg, initialWalkState] at he
  have hInv0 : CycleInv initialWalkState := ⟨rfl, rfl, hCR⟩
  have hdiv := (cycle_diverges fuel).1 none 1 initialWalkState hInv0
  rw [show walk cycleEnv "rootA" fuel none repoA 1 initialWalkState =
    walkFn cycleEnv "rootA" fuel (.node none repoA 1) initialWalkState from rfl, hdiv]
  simp only [bind_error]

lemma cacheLookup_cacheWrite_self (fs : CacheFs) (p : String) (d : FileData) :
    cacheLookup (cacheWrite fs p d) p = some d := by
  by_cases h : fs.any (fun q => q.1 == p)
  · simp only [cacheWrite, h, if_pos]
    induction fs with
    | nil => simp at h
    | cons q fs ih =>
        by_cases hq : q.1 = p
        · simp [cacheLookup, List.find?_cons, hq]
        · simp only [List.any_cons, Bool.or_eq_true, beq_iff_eq, hq, false_or] at h
          simpa [cacheLookup, List.find?_cons, hq] using ih h
  · simp only [cacheWrite, h, if_neg, Bool.false_eq_true, not_false_eq_true]
    induction fs with
    | nil => simp [cacheLookup]
    | cons q fs ih =>
        simp only [List.any_cons, Bool.or_eq_true, beq_iff_eq] at h
        push_neg at h
        simpa [cacheLookup, List.find?_cons, h.1] using ih (by simpa using h.2)

lemma load_force_eq (env : Env) (osenv : OsEnv) (cache : CacheFs) (fuel : Nat)
    (root : String) (cfg : Option String) (fast : Bool) :
    load env osenv cache fuel root cfg fast true = loadForce env fuel root cfg fast := rfl

lemma load_noforce_eq {env : Env} {osenv : OsEnv} (cache : CacheFs) (fuel : Nat)
    {root : String} {cfg : Option String} (fast : Bool)
    (h : pyTruthy osenv.de_repo_root = false) :
    load env osenv cache fuel root cfg fast false = loadForce env fuel root cfg fast := by
  unfold load
  rw [h]
  show (match cacheLookup cache (getFilename root cfg fast) with
      | some fd =>
          match deserializeActivationData fd with
          | .ok a => .ok a
          | .error _ => loadForce env fuel root cfg fast
      | none => loadForce env fuel root cfg fast) = loadForce env fuel root cfg fast
  cases hc : cacheLookup cache (getFilename root cfg fast) with
  | none => rfl
  | some fd => cases fd <;> rfl

lemma flookup_mem {m : List (String × String)} {k v : String}
    (h : flookup m k = some v) : (k, v) ∈ m := by
  unfold flookup at h
  cases hf : m.find? (fun p => p.1 == k) with
  | none => rw [hf] at h; cases h
  | some p =>
      rw [hf] at h
      injection h with h'
      have hp := List.find?_some hf
      have hmem := List.mem_of_find?_eq_some hf
      have hk : p.1 = k := by simpa using hp
      have : (k, v) = p := by
        cases p
        simp only at hk h'
        rw [hk, h']
      rw [this]
      exact hmem

lemma flookup_none {m : List (String × String)} {k : String}
    (h : flookup m k = none) : ∀ v, (k, v) ∉ m := by
  intro v hmem
  unfold flookup at h
  cases hf : m.find? (fun p => p.1 == k) with
  | some p => rw [hf] at h; cases h
  | none =>
      have := List.find?_eq_none.1 hf (k, v) hmem
      simp at this

lemma flookup_isSome_of_mem {m : List (String × String)} {k v : String}
    (h : (k, v) ∈ m) : (flookup m k).isSome := by
  cases hf : flookup m k with
  | none => exact absurd h (flookup_none hf v)
  | some w => rfl

lemma flookup_of_mem_nodup {m : List (String × String)} {k v : String}
    (hnd : (m.map Prod.fst).Nodup) (h : (k, v) ∈ m) : flookup m k = some v := by
  induction m with
  | nil => cases h
  | cons p m ih =>
      simp only [List.map_cons, List.nodup_cons] at hnd
      rcases List.mem_cons.1 h with hEq | hmem
      · subst hEq
        unfold flookup
        rw [List.find?_cons_of_pos _ (by simp)]
        rfl
      · have hne : ¬ p.1 = k := by
          intro hc
          exact hnd.1 (by rw [hc]; exact List.mem_map.2 ⟨(k, v), hmem, rfl⟩)
        unfold flookup
        rw [List.find?_cons_of_neg _ (by simpa using hne)]
        exact ih hnd.2 hmem

/-- Python dict equality of fingerprint mappings is exact map equality: the
boolean the staleness check uses is true precisely when every key has the same
binding on both sides (no extra, missing, or differing entries). -/
lemma fingerprintsEqual_iff {a b : List (String × String)}
    (ha : (a.map Prod.fst).Nodup) (hb : (b.map Prod.fst).Nodup) :
    fingerprintsEqual a b = true ↔ ∀ k, flookup a k = flookup b k := by
  unfold fingerprintsEqual
  rw [Bool.and_eq_true, List.all_eq_true, List.all_eq_true]
  constructor
  · rintro ⟨h1, h2⟩ k
    cases hak : flookup a k with
    | some v =>
        have hmem := flookup_mem hak
        have := h1 (k, v) hmem
        exact (show flookup b k = some v by simpa using this).symm
    | none =>
        cases hbk : flookup b k with
        | none => rfl
        | some w =>
            have hmem := flookup_mem hbk
            have := h2 (k, w) hmem
            simp only [beq_iff_eq] at this
            rw [hak] at this
            cases this
  · intro h
    constructor
    · intro p hp
      have hv := flookup_of_mem_nodup ha hp
      simp only [beq_iff_eq]
      rw [← h p.1]
      exact hv
    · intro p hp
      have hv := flookup_of_mem_nodup hb hp
      simp only [beq_iff_eq]
      rw [h p.1]
      exact hv

/-- Every entry of the staleness diagnostic carries one of the four tags. -/
lemma classify_tags {cf sf : List (String × String)} :
    ∀ kt ∈ classifyFingerprint cf sf,
      kt.2 = "Added" ∨ kt.2 = "Removed" ∨ kt.2 = "Modified" ∨ kt.2 = "Identical" := by
  intro kt hkt
  unfold classifyFingerprint at hkt
  rcases List.mem_append.1 hkt with hin | hin
  · obtain ⟨p, _, hpe⟩ := List.mem_map.1 hin
    by_cases h1 : (flookup sf p.1).isNone
    · rw [if_pos h1] at hpe
      subst hpe
      exact Or.inl rfl
    · rw [if_neg h1] at hpe
      subst hpe
      by_cases h2 : (flookup sf p.1 == some p.2) = true
      · rw [if_pos h2]
        exact Or.inr (Or.inr (Or.inr rfl))
      · rw [if_neg h2]
        exact Or.inr (Or.inr (Or.inl rfl))
  · obtain ⟨p, _, hpe⟩ := List.mem_filterMap.1 hin
    by_cases h1 : (flookup cf p.1).isNone
    · rw [if_pos h1] at hpe
      injection hpe with hpe'
      subst hpe'
      exact Or.inr (Or.inl rfl)
    · rw [if_neg h1] at hpe
      cases hpe

/-- Every key of either mapping is classified. -/
lemma classify_total {cf sf : List (String × String)} (k : String)
    (h : (flookup cf k).isSome ∨ (flookup sf k).isSome) :
    ∃ t, (k, t) ∈ classifyFingerprint cf sf := by
  unfold classifyFingerprint
  rcases hcf : flookup cf k with _ | v
  · rcases h with h | h
    · rw [hcf] at h; cases h
    · rcases hsf : flookup sf k with _ | w
      · rw [hsf] at h; cases h
      · refine ⟨"Removed", List.mem_append.2 (Or.inr ?_)⟩
        refine List.mem_filterMap.2 ⟨(k, w), flookup_mem hsf, ?_⟩
        rw [if_pos (by rw [hcf]; rfl)]
  · have hmem := flookup_mem hcf
    by_cases h1 : (flookup sf k).isNone
    · refine ⟨"Added", List.mem_append.2 (Or.inl ?_)⟩
      refine List.mem_map.2 ⟨(k, v), hmem, ?_⟩
      rw [if_pos (by simpa using h1)]
    · refine ⟨if flookup sf k == some v then "Identical" else "Modified",
        List.mem_append.2 (Or.inl ?_)⟩
      refine List.mem_map.2 ⟨(k, v), hmem, ?_⟩
      rw [if_neg (by simpa using h1)]

/-- A key present in both mappings with different values is reported
Modified. -/
lemma classify_modified {cf sf : List (String × String)} {k v w : String}
    (hcf : flookup cf k = some v) (hsf : flookup sf k = some w) (hne : v ≠ w) :
    (k, "Modified") ∈ classifyFingerprint cf sf := by
  unfold classifyFingerprint
  refine List.mem_append.2 (Or.inl (List.mem_map.2 ⟨(k, v), flookup_mem hcf, ?_⟩))
  rw [if_neg (by simp [hsf])]
  rw [if_neg (by simp [hsf, Ne.symm hne])]

/-! Claim theorems. -/

/-- C1, counterexample: the claim is false on the code.  First conjunct: on
the cyclic graph A→B→A, Load with force=True does not terminate with a result
— at a call-stack bound of 100 the walk is still recursing (the helper lemma
shows the same for every bound).  Second conjunct: repeat visits do not
short-circuit: in R→{P,Q}, P→S, Q→S, S→T, the walk recurses into the
dependencies of S on both visits, so T accumulates priority 8 (4 per path)
where a first-visit-only recursion would give 4. -/
theorem c1_counterexample :
    loadForce cycleEnv 100 "rootA" none false = .error .outOfFuel ∧
    (walk diamondDeepEnv "rootR" 30 none ⟨"idR", "R", "rootR", none, false⟩ 1
        initialWalkState).map
      (fun st => st.repositories.map (fun p => (p.1, p.2.priority_modifier))) =
      .ok [("idR", 1), ("idP", 2), ("idS", 6), ("idT", 8), ("idQ", 2)] :=
  ⟨loadForce_cycle 100 false, by decide⟩

/-- C1, amended: the recursive Walk runs its whole body — including the
recursion into the dependency list — on every visit; only the descriptor load
and registration are skipped on repeat visits (so T in the deep diamond
accumulates 8).  Consequently a dependency cycle A→B→A is not tolerated:
the fueled walk returns out-of-fuel for every fuel bound (the Python original
recurses without bound and crashes), and no PrioritizedRepositories list is
ever produced for a cyclic graph. -/
theorem c1_amended :
    (∀ fuel : Nat, loadForce cycleEnv fuel "rootA" none false = .error .outOfFuel) ∧
    (walk diamondDeepEnv "rootR" 30 none ⟨"idR", "R", "rootR", none, false⟩ 1
        initialWalkState).map
      (fun st => st.repositories.map (fun p => (p.2.Repo.Name, p.2.priority_modifier))) =
      .ok [("R", 1), ("P", 2), ("S", 6), ("T", 8), ("Q", 2)] :=
  ⟨fun fuel => loadForce_cycle fuel false, by decide⟩

/-- C2, confirmed: Load(force=True) then Save then Load(force=False) returns
the very same ActivationData record, hence every field agrees with the forced
resolution.  (In the source this holds because the cached-load path always
falls through to a second, identical full resolution — see C7/C9 — and the
full resolution is deterministic.)  The hypothesis states that no ambient
activated-shell environment variable overrides the arguments. -/
theorem c2_roundtrip {env : Env} {osenv : OsEnv} {cache : CacheFs} {fuel : Nat}
    {root : String} {cfg : Option String} {fast : Bool} {ad : ActivationDataT}
    (henv : pyTruthy osenv.de_repo_root = false)
    (h : load env osenv cache fuel root cfg fast true = .ok ad) :
    load env osenv (save cache ad) fuel root cfg fast false = .ok ad := by
  rw [load_noforce_eq (save cache ad) fuel fast henv]
  rw [load_force_eq] at h
  exact h

theorem c2_roundtrip_witness :
    load singleEnv noOsEnv (save [] singleAD) 10 "rootX" none false false = .ok singleAD :=
  c2_roundtrip (by decide) (by decide)

/-- C3, counterexample: in the diamond R→{P,Q}, P→S, Q→S, the resulting
PrioritizedRepositories order is [S, P, Q, R] — the root R does NOT outrank
the other repositories; it has the lowest accumulated priority and appears
last (position 3), while S appears first. -/
theorem c3_counterexample :
    (loadForce diamondEnv 20 "rootR" none false).map
        (fun a => a.PrioritizedRepositories.map Repository.Id) =
      .ok ["idS", "idP", "idQ", "idR"] ∧
    List.indexOf "idR" ["idS", "idP", "idQ", "idR"] = 3 := by decide

/-- C3, amended: after the walk the repositories are ordered by descending
accumulated priority, ties broken by first-visit order under the stable sort
(P before Q); S (priority 6) outranks P and Q (priority 2 each), and the root
R accumulates the LOWEST priority (1) and is outranked by all other
repositories, appearing last — the source relies on this by reading the root
entry back as the last element of the sorted list. -/
theorem c3_amended :
    (walk diamondEnv "rootR" 20 none ⟨"idR", "R", "rootR", none, false⟩ 1
        initialWalkState).map
      (fun st => (sortDescending st.repositories).map (fun p => (p.1, p.2.priority_modifier))) =
      .ok [("idS", 6), ("idP", 2), ("idQ", 2), ("idR", 1)] ∧
    (loadForce diamondEnv 20 "rootR" none false).map
        (fun a => a.PrioritizedRepositories.map Repository.Id) =
      .ok ["idS", "idP", "idQ", "idR"] := by decide

/-- C4, counterexample: a forced Load that does not hit the cache constructs
and returns the new ActivationData but does NOT persist it: afterwards the
cache still holds nothing at the deterministic path for (root, configuration,
fast). -/
theorem c4_counterexample :
    loadST singleEnv noOsEnv [] 10 "rootX" none false true = .ok (singleAD, []) ∧
    cacheLookup ([] : CacheFs) (getFilename "rootX" none false) = none := by decide

/-- C4, amended: Load never writes the cache — whatever path it takes, the
cache comes back unchanged; persisting is the separate Save method, which
serializes the ActivationData to the deterministic path for its root,
configuration and fast flag, overwriting any existing file. -/
theorem c4_amended :
    (∀ (env : Env) (osenv : OsEnv) (cache : CacheFs) (fuel : Nat) (root : String)
        (cfg : Option String) (fast force : Bool) (ad : ActivationDataT) (cc : CacheFs),
      loadST env osenv cache fuel root cfg fast force = .ok (ad, cc) → cc = cache) ∧
    (∀ (cache : CacheFs) (a : ActivationDataT),
      cacheLookup (save cache a)
        (getFilename a.Root a.Configuration a.IsFastEnvironment) = some (.valid a)) := by
  constructor
  · intro env osenv cache fuel root cfg fast force ad cc h
    unfold loadST at h
    cases hl : load env osenv cache fuel root cfg fast force with
    | error e => rw [hl] at h; cases h
    | ok a =>
        rw [hl] at h
        injection h with h'
        injection h' with _ h2
        exact h2.symm
  · intro cache a
    exact cacheLookup_cacheWrite_self cache _ _

theorem c4_amended_witness :
    ([] : CacheFs) = [] ∧
    cacheLookup (save [] singleAD)
      (getFilename singleAD.Root singleAD.Configuration singleAD.IsFastEnvironment) =
      some (.valid singleAD) :=
  ⟨c4_amended.1 singleEnv noOsEnv [] 10 "rootX" none false true singleAD [] (by decide),
   c4_amended.2 [] singleAD⟩

/-- C5, confirmed: merging a tool or library already recorded with the same
version succeeds and leaves the accumulator unchanged; a tool recorded with
a different version is always a fatal version mismatch (no ignore-list applies
to tools — the end-to-end example even lists T in the ignore-list); a library
recorded with a different version is fatal exactly when its name is not in the
ignore-list captured from the root, and otherwise the first-encountered
version stands silently. -/
theorem c5_version_merge :
    (∀ (tvi : List VersionInfo) (vi e : VersionInfo),
      tvi.find? (fun t => t.Name == vi.Name) = some e → vi.Version = e.Version →
      mergeToolVersion tvi vi = .ok tvi) ∧
    (∀ (tvi : List VersionInfo) (vi e : VersionInfo),
      tvi.find? (fun t => t.Name == vi.Name) = some e → vi.Version ≠ e.Version →
      mergeToolVersion tvi vi = .error (.versionMismatch "Tools" vi.Name)) ∧
    (∀ (ign : List String) (lib : List (String × List VersionInfo)) (lang : String)
        (vi e : VersionInfo),
      findLibraryVersion lib lang vi.Name = some e → vi.Version = e.Version →
      mergeLibraryVersion ign lib lang vi = .ok lib) ∧
    (∀ (ign : List String) (lib : List (String × List VersionInfo)) (lang : String)
        (vi e : VersionInfo),
      findLibraryVersion lib lang vi.Name = some e → vi.Version ≠ e.Version →
      vi.Name ∉ ign →
      mergeLibraryVersion ign lib lang vi = .error (.versionMismatch (lang ++ " Libraries") vi.Name)) ∧
    (∀ (ign : List String) (lib : List (String × List VersionInfo)) (lang : String)
        (vi e : VersionInfo),
      findLibraryVersion lib lang vi.Name = some e → vi.Version ≠ e.Version →
      vi.Name ∈ ign → mergeLibraryVersion ign lib lang vi = .ok lib) ∧
    loadForce libConflictEnv 20 "rootL" none false =
      .error (.versionMismatch "python Libraries" "X") ∧
    loadForce toolConflictEnv 20 "rootL" none false =
      .error (.versionMismatch "Tools" "T") ∧
    (loadForce libIgnoredEnv 20 "rootL" none false).map (fun a => a.VersionSpecs.Libraries) =
      .ok [("python", [⟨"X", "1.0"⟩])] := by
  refine ⟨?_, ?_, ?_, ?_, ?_, by decide, by decide, by decide⟩
  · intro tvi vi e hf hv
    unfold mergeToolVersion
    rw [hf]
    dsimp only
    rw [if_neg (show ¬ vi.Version ≠ e.Version by simp [hv])]
  · intro tvi vi e hf hv
    unfold mergeToolVersion
    rw [hf]
    dsimp only
    rw [if_pos hv]
  · intro ign lib lang vi e hf hv
    unfold mergeLibraryVersion
    rw [hf]
    dsimp only
    rw [if_neg (show ¬ vi.Version ≠ e.Version by simp [hv])]
  · intro ign lib lang vi e hf hv hn
    unfold mergeLibraryVersion
    rw [hf]
    dsimp only
    rw [if_pos hv, if_pos hn]
  · intro ign lib lang vi e hf hv hn
    unfold mergeLibraryVersion
    rw [hf]
    dsimp only
    rw [if_pos hv, if_neg (show ¬ vi.Name ∉ ign by simp [hn])]

theorem c5_version_merge_witness :
    mergeToolVersion [⟨"T", "1.0"⟩] ⟨"T", "1.0"⟩ = .ok [⟨"T", "1.0"⟩] ∧
    mergeToolVersion [⟨"T", "1.0"⟩] ⟨"T", "2.0"⟩ = .error (.versionMismatch "Tools" "T") ∧
    mergeLibraryVersion [] [("python", [⟨"X", "1.0"⟩])] "python" ⟨"X", "1.0"⟩ =
      .ok [("python", [⟨"X", "1.0"⟩])] ∧
    mergeLibraryVersion [] [("python", [⟨"X", "1.0"⟩])] "python" ⟨"X", "2.0"⟩ =
      .error (.versionMismatch "python Libraries" "X") ∧
    mergeLibraryVersion ["X"] [("python", [⟨"X", "1.0"⟩])] "python" ⟨"X", "2.0"⟩ =
      .ok [("python", [⟨"X", "1.0"⟩])] :=
  ⟨c5_version_merge.1 _ ⟨"T", "1.0"⟩ ⟨"T", "1.0"⟩ (by decide) rfl,
   c5_version_merge.2.1 _ ⟨"T", "2.0"⟩ ⟨"T", "1.0"⟩ (by decide) (by decide),
   c5_version_merge.2.2.1 [] _ "python" ⟨"X", "1.0"⟩ ⟨"X", "1.0"⟩ (by decide) rfl,
   c5_version_merge.2.2.2.1 [] _ "python" ⟨"X", "2.0"⟩ ⟨"X", "1.0"⟩ (by decide) (by decide)
     (by decide),
   c5_version_merge.2.2.2.2.1 ["X"] _ "python" ⟨"X", "2.0"⟩ ⟨"X", "1.0"⟩ (by decide)
     (by decide) (by decide)⟩

/-- C6, confirmed: the staleness check is exact map equality (same keys, same
values, order-independent); on mismatch every key of either mapping is
classified with one of the four tags, keys present on both sides with
different values are reported Modified, and in the end-to-end scenario —
setup on fpEnv, then a file under dependency root G mutated — the next
Load(force=False) fails with the StaleEnvironmentError diagnostic listing
rootG as Modified (and rootF as Identical), instead of silently recomputing. -/
theorem c6_fingerprint :
    (∀ (cf sf : List (String × String)), (cf.map Prod.fst).Nodup →
      (sf.map Prod.fst).Nodup →
      (fingerprintsEqual cf sf = true ↔ ∀ k, flookup cf k = flookup sf k)) ∧
    (∀ (cf sf : List (String × String)) (kt : String × String),
      kt ∈ classifyFingerprint cf sf →
      kt.2 = "Added" ∨ kt.2 = "Removed" ∨ kt.2 = "Modified" ∨ kt.2 = "Identical") ∧
    (∀ (cf sf : List (String × String)) (k : String),
      (flookup cf k).isSome ∨ (flookup sf k).isSome →
      ∃ t, (k, t) ∈ classifyFingerprint cf sf) ∧
    (∀ (cf sf : List (String × String)) (k v w : String),
      flookup cf k = some v → flookup sf k = some w → v ≠ w →
      (k, "Modified") ∈ classifyFingerprint cf sf) ∧
    load fpEnv noOsEnv [] 20 "rootF" none false true = .ok fpAD ∧
    load fpEnvMutated noOsEnv (save [] fpAD) 20 "rootF" none false false =
      .error (.staleEnvironment [("rootF", "Identical"), ("rootG", "Modified")]) := by
  refine ⟨?_, ?_, ?_, ?_, by decide, by decide⟩
  · intro cf sf ha hb
    exact fingerprintsEqual_iff ha hb
  · intro cf sf kt hkt
    exact classify_tags kt hkt
  · intro cf sf k h
    exact classify_total k h
  · intro cf sf k v w hcf hsf hne
    exact classify_modified hcf hsf hne

theorem c6_fingerprint_witness :
    (fingerprintsEqual [("a", "1"), ("b", "2")] [("b", "2"), ("a", "1")] = true ↔
      ∀ k, flookup [("a", "1"), ("b", "2")] k = flookup [("b", "2"), ("a", "1")] k) ∧
    (("g", "Modified") ∈ classifyFingerprint [("g", "2")] [("g", "1")]) ∧
    (∃ t, ("g", t) ∈ classifyFingerprint [("g", "2")] []) :=
  ⟨c6_fingerprint.1 _ _ (by decide) (by decide),
   c6_fingerprint.2.2.2.1 [("g", "2")] [("g", "1")] "g" "2" "1" (by decide) (by decide)
     (by decide),
   c6_fingerprint.2.2.1 [("g", "2")] [] "g" (Or.inl (by decide))⟩

/-- C7, confirmed: deserialization of every possible cache file content fails
(unparseable bytes fail in json.load; parseable files fail in the constructor
call, which passes 7 positional arguments to the 8-parameter init), and
whenever the file at the cache path fails to deserialize, Load(force=False)
falls through to the full resolution — no deserialization failure is ever
surfaced to the caller. -/
theorem c7_deserialize_failure_is_cache_miss :
    (∀ fd : FileData, ∃ e, deserializeActivationData fd = .error e) ∧
    (∀ (env : Env) (osenv : OsEnv) (cache : CacheFs) (fuel : Nat) (root : String)
        (cfg : Option String) (fast : Bool) (fd : FileData) (e : DeserializeError),
      pyTruthy osenv.de_repo_root = false →
      cacheLookup cache (getFilename root cfg fast) = some fd →
      deserializeActivationData fd = .error e →
      load env osenv cache fuel root cfg fast false = loadForce env fuel root cfg fast) := by
  constructor
  · intro fd
    cases fd with
    | valid a => exact ⟨.typeErrorMissingArgument, rfl⟩
    | junk s => exact ⟨.jsonDecodeError, rfl⟩
  · intro env osenv cache fuel root cfg fast fd e henv _ _
    exact load_noforce_eq cache fuel fast henv

theorem c7_deserialize_failure_witness :
    load singleEnv noOsEnv junkCache 10 "rootX" none false false =
      loadForce singleEnv 10 "rootX" none false :=
  c7_deserialize_failure_is_cache_miss.2 singleEnv noOsEnv junkCache 10 "rootX" none false
    (.junk "truncated bytes") .jsonDecodeError (by decide) (by decide) (by decide)

/-- C8, confirmed: two forced Loads over the same filesystem state produce
identical PrioritizedRepositories and VersionSpecs — even if the ambient
environment variables and the cache contents differ between the two calls,
since the forced path consults neither. -/
theorem c8_determinism (env : Env) (osenv osenv2 : OsEnv) (cache cache2 : CacheFs)
    (fuel : Nat) (root : String) (cfg : Option String) (fast : Bool)
    (ad ad2 : ActivationDataT)
    (h1 : load env osenv cache fuel root cfg fast true = .ok ad)
    (h2 : load env osenv2 cache2 fuel root cfg fast true = .ok ad2) :
    ad.PrioritizedRepositories = ad2.PrioritizedRepositories ∧
    ad.VersionSpecs = ad2.VersionSpecs := by
  rw [load_force_eq] at h1 h2
  rw [h1] at h2
  injection h2 with h
  rw [h]
  exact ⟨rfl, rfl⟩

theorem c8_determinism_witness :
    singleAD.PrioritizedRepositories = singleAD.PrioritizedRepositories ∧
    singleAD.VersionSpecs = singleAD.VersionSpecs :=
  c8_determinism singleEnv noOsEnv ⟨some "rootY", none⟩ [] junkCache 10 "rootX" none false
    singleAD singleAD (by decide) (by decide)

/-- C9, confirmed: no content the cache file can possibly hold — the complete
object Save writes, or the truncated or otherwise corrupted bytes an
interrupted in-place write leaves behind — ever deserializes successfully, so
an interruption of Save cannot leave a file that deserializes successfully but
contains invalid activation data.  (The guarantee is even stronger than the
claim: the cached-load constructor call is missing its is_fast_environment
argument, so deserialization fails on every file; and a proper initial segment of a
JSON document does not parse either.  Save itself writes in place with mode
"w" — there is no temporary file and no rename.) -/
theorem c9_interrupted_save_harmless :
    ∀ fd : FileData, (deserializeActivationData fd).isOk = false := by
  intro fd
  cases fd <;> rfl

/-- C10, confirmed: the PrioritizedRepositories of every successful forced
resolution has pairwise-distinct repository ids — the registry is keyed by id,
the sort permutes it, and each entry carries the Repository of its key. -/
theorem c10_unique_repository_ids (env : Env) (fuel : Nat) (root : String)
    (cfg : Option String) (fast : Bool) (ad : ActivationDataT)
    (h : loadForce env fuel root cfg fast = .ok ad) :
    (ad.PrioritizedRepositories.map Repository.Id).Nodup := by
  obtain ⟨this, st, hcr, hw, hpr⟩ := loadForce_ok_inv h
  have hwf0 : RegWF initialWalkState.repositories := by
    constructor
    · exact List.nodup_nil
    · intro p hp
      cases hp
  unfold walk at hw
  have hwf : RegWF st.repositories := walkFn_WF fuel _ initialWalkState st hwf0 hw
  have hperm := sortDescending_perm st.repositories
  have hids : ad.PrioritizedRepositories.map Repository.Id =
      (sortDescending st.repositories).map Prod.fst := by
    rw [hpr, List.map_map]
    exact List.map_congr_left (fun p hp => hwf.2 p (hperm.mem_iff.1 hp))
  rw [hids]
  exact ((hperm.map Prod.fst).nodup_iff).2 hwf.1

theorem c10_unique_repository_ids_witness :
    (diamondAD.PrioritizedRepositories.map Repository.Id).Nodup :=
  c10_unique_repository_ids diamondEnv 20 "rootR" none false diamondAD (by decide)

end VCE
